import Mathlib

/-!
Verification of the RareSource search-cache and multi-source aggregation core.

The repository ships the cache table schema (`backend/search_cache_schema.sql`,
embedded below as `delete_expired_cache` over a list-of-rows store) and the
React front end (`toggleQC` in the App component, embedded below).  The
Aggregator, Query Orchestrator and Cache Store operations `put`/`get`/`touch`
are designed in the specification but their backend implementation is not in
the provided sources; those definitions are modelled from the spec and say so
in their doc comments.
-/

namespace RareSource

/-- Source type of a result: official-api, scraped, or deep-link. -/
inductive SourceType where
  | officialApi
  | scraped
  | deepLink
deriving DecidableEq, Repr

/-- Risk classification computed by the Aggregator. -/
inductive RiskLevel where
  | Low
  | Medium
  | High
deriving DecidableEq, Repr

/-- A single offer produced by one Source Client (data model of the spec). -/
structure SourceResult where
  sourceId : Nat
  mpn : String := ""
  manufacturer : String := ""
  distributor : String := ""
  sourceType : SourceType := .officialApi
  stock : Option Nat := none
  price : Int := 0
  currency : String := "KRW"
  priceHistory : List Int := []
  condition : String := ""
  dateCode : String := ""
  isEndOfLife : Bool := false
  riskLevel : RiskLevel := .Low
deriving DecidableEq, Repr

/-- Configuration inputs: the low-stock threshold used by risk scoring and the
TTL used for cache writes (the schema's default is one hour). -/
structure Config where
  lowStockThreshold : Nat := 10
  ttl : Nat := 3600
deriving DecidableEq, Repr

/-- Is the (optional) stock present and below the configured threshold? -/
def belowThreshold (cfg : Config) (st : Option Nat) : Bool :=
  match st with
  | some s => s < cfg.lowStockThreshold
  | none => false

/-- Modelled from the spec: the Aggregator's deterministic risk rule
(backend scoring code is not in the provided sources).  High if
`isEndOfLife` or (`stock == 0` and `sourceType != official-api`);
Medium if `sourceType == scraped` and stock is present but below the
configured low-stock threshold; otherwise Low. -/
def scoreRisk (cfg : Config) (r : SourceResult) : RiskLevel :=
  if r.isEndOfLife || (r.stock == some 0 && !(r.sourceType == .officialApi)) then
    .High
  else if r.sourceType == .scraped && belowThreshold cfg r.stock then
    .Medium
  else
    .Low

/-- Per-source failure kinds (timeout, auth failure, rate limited). -/
inductive FailureKind where
  | timeout
  | authFailure
  | rateLimited
deriving DecidableEq, Repr

/-- Outcome of one Source Client fetch: a (possibly empty) result sequence,
or a typed failure.  "No results" is `ok []`, distinct from a failure. -/
inductive FetchOutcome where
  | ok (results : List SourceResult)
  | failed (kind : FailureKind)
deriving DecidableEq, Repr

/-- Did this fetch outcome fail (error or time out)? -/
def FetchOutcome.isFailed : FetchOutcome → Bool
  | .ok _ => false
  | .failed _ => true

/-- Results contributed by an outcome: failures contribute zero results. -/
def FetchOutcome.resultsOf : FetchOutcome → List SourceResult
  | .ok rs => rs
  | .failed _ => []

/-- Modelled from the spec: a Source Client is a capability
`fetch(query) -> sequence of SourceResult` with an identity; the concrete
client implementations are not in the provided sources. -/
structure SourceClient where
  id : Nat
  fetch : String → FetchOutcome

/-- Two results are the same logical offer when `(sourceId, distributor, mpn)`
match (deduplication key of the spec). -/
def sameOffer (a b : SourceResult) : Bool :=
  a.sourceId == b.sourceId && a.distributor == b.distributor && a.mpn == b.mpn

/-- One step of deduplication: on a duplicate offer keep the newly observed
price and append the prior price to `priceHistory`; otherwise keep arrival
order. -/
def dedupStep (acc : List SourceResult) (r : SourceResult) : List SourceResult :=
  if acc.any (fun a => sameOffer a r) then
    acc.map (fun a =>
      if sameOffer a r then { r with priceHistory := a.priceHistory ++ [a.price] } else a)
  else
    acc ++ [r]

/-- Deduplicate a result sequence in arrival order. -/
def dedup (rs : List SourceResult) : List SourceResult :=
  rs.foldl dedupStep []

/-- The Aggregator's output. -/
structure AggregateResult where
  results : List SourceResult
  sourceCount : Nat
  allSourcesFailed : Bool
deriving DecidableEq, Repr

/-- All results collected from the fan-out, in arrival order (one slot per
client; failed or timed-out clients contribute zero results). -/
def collect (clients : List SourceClient) (q : String) : List SourceResult :=
  (clients.map (fun c => (c.fetch q).resultsOf)).flatten

/-- The Aggregator's result list: collected results, deduplicated, each scored
by the deterministic risk rule. -/
def aggResults (cfg : Config) (clients : List SourceClient) (q : String) :
    List SourceResult :=
  (dedup (collect clients q)).map (fun r => { r with riskLevel := scoreRisk cfg r })

/-- Modelled from the spec: the Aggregator (backend implementation not in the
provided sources).  Fans out the query to every configured client, collects
results in arrival order, deduplicates, scores risk, counts distinct
contributing sources, and reports `allSourcesFailed` exactly when there is at
least one configured client and every client errored or timed out. -/
def aggregate (cfg : Config) (clients : List SourceClient) (q : String) :
    AggregateResult :=
  { results := aggResults cfg clients q
    sourceCount := ((aggResults cfg clients q).map (fun r => r.sourceId)).eraseDups.length
    allSourcesFailed :=
      !clients.isEmpty && (clients.map (fun c => c.fetch q)).all FetchOutcome.isFailed }

/-- Updating `riskLevel` does not change what the risk rule computes: the rule
reads only `isEndOfLife`, `stock` and `sourceType`. -/
theorem scoreRisk_update (cfg : Config) (r : SourceResult) (x : RiskLevel) :
    scoreRisk cfg { r with riskLevel := x } = scoreRisk cfg r := rfl

/-- The spec's two-client example, result from client A: distributor "A",
stock 500, price 100 (official-api by default). -/
def resA : SourceResult :=
  { sourceId := 1, mpn := "LM358", distributor := "A", stock := some 500, price := 100 }

/-- The spec's two-client example, result from client B: distributor "B",
stock 0, price 0, scraped. -/
def resB : SourceResult :=
  { sourceId := 2, mpn := "LM358", distributor := "B", stock := some 0, price := 0,
    sourceType := .scraped }

/-- Example Source Client A. -/
def clientA : SourceClient := ⟨1, fun _ => .ok [resA]⟩

/-- Example Source Client B. -/
def clientB : SourceClient := ⟨2, fun _ => .ok [resB]⟩

/-- Example configuration (defaults: low-stock threshold 10, TTL one hour). -/
def exCfg : Config := {}

/-- C1: every `SourceResult` in an Aggregator output carries exactly the
riskLevel computed by the deterministic rule (High on end-of-life or zero
stock off the official API; Medium on scraped low stock; otherwise Low); and
on the spec's "LM358" two-client example the aggregate has 2 results,
`sourceCount = 2`, and result B (stock 0, scraped) is scored High. -/
theorem aggregate_riskLevel (cfg : Config) (clients : List SourceClient) (q : String) :
    (∀ r ∈ (aggregate cfg clients q).results, r.riskLevel = scoreRisk cfg r)
    ∧ (aggregate exCfg [clientA, clientB] "LM358").results.length = 2
    ∧ (aggregate exCfg [clientA, clientB] "LM358").sourceCount = 2
    ∧ ((aggregate exCfg [clientA, clientB] "LM358").results.filter
        (fun r => r.distributor == "B")).map (fun r => r.riskLevel) = [.High] := by
  refine ⟨?_, by decide, by decide, by decide⟩
  intro r hr
  simp only [aggregate, aggResults, List.mem_map] at hr
  obtain ⟨a, _, rfl⟩ := hr
  exact (scoreRisk_update cfg a (scoreRisk cfg a)).symm

/-- C1 witness: the general part of `aggregate_riskLevel` applied to the
concrete scored result B of the LM358 example. -/
theorem aggregate_riskLevel_witness :
    ({ resB with riskLevel := .High } : SourceResult).riskLevel
      = scoreRisk exCfg { resB with riskLevel := .High } :=
  (aggregate_riskLevel exCfg [clientA, clientB] "LM358").1
    { resB with riskLevel := .High } (by decide)

/-- C2: with at least one configured client, `allSourcesFailed` is true exactly
when every client errored or timed out; and if every client returns an empty
sequence without error, `allSourcesFailed` is false and `results` is empty. -/
theorem aggregate_allSourcesFailed (cfg : Config) (clients : List SourceClient)
    (q : String) (h : clients ≠ []) :
    ((aggregate cfg clients q).allSourcesFailed = true
        ↔ ∀ c ∈ clients, (c.fetch q).isFailed = true)
    ∧ ((∀ c ∈ clients, c.fetch q = .ok [])
        → (aggregate cfg clients q).allSourcesFailed = false
          ∧ (aggregate cfg clients q).results = []) := by
  constructor
  · simp [aggregate, List.all_map, List.all_eq_true, List.isEmpty_iff, h, Function.comp]
  · intro hall
    have hcol : collect clients q = [] := by
      simp only [collect, List.flatten_eq_nil_iff, List.mem_map]
      rintro l ⟨c, hc, rfl⟩
      rw [hall c hc]
      rfl
    constructor
    · obtain ⟨c, hc⟩ : ∃ c, c ∈ clients := by
        cases clients with
        | nil => exact absurd rfl h
        | cons c cs => exact ⟨c, List.mem_cons_self c cs⟩
      simp only [aggregate, Bool.and_eq_false_iff, List.all_eq_false]
      right
      refine ⟨c.fetch q, List.mem_map_of_mem _ hc, ?_⟩
      rw [hall c hc]
      decide
    · simp only [aggregate, aggResults, hcol]
      rfl

/-- C2 witness: two clients that both time out yield `allSourcesFailed`; and
two clients that both answer `ok []` yield an empty, non-failed aggregate. -/
theorem aggregate_allSourcesFailed_witness :
    ((aggregate exCfg [⟨1, fun _ => .failed .timeout⟩, ⟨2, fun _ => .failed .timeout⟩]
        "LM358").allSourcesFailed = true)
    ∧ ((aggregate exCfg [⟨1, fun _ => .ok []⟩, ⟨2, fun _ => .ok []⟩]
        "LM358").allSourcesFailed = false
      ∧ (aggregate exCfg [⟨1, fun _ => .ok []⟩, ⟨2, fun _ => .ok []⟩]
        "LM358").results = []) :=
  ⟨((aggregate_allSourcesFailed exCfg
      [⟨1, fun _ => .failed .timeout⟩, ⟨2, fun _ => .failed .timeout⟩] "LM358"
      (by simp)).1).mpr (by decide),
   (aggregate_allSourcesFailed exCfg
      [⟨1, fun _ => .ok []⟩, ⟨2, fun _ => .ok []⟩] "LM358"
      (by simp)).2 (by decide)⟩

/-- A cache row, following the `search_cache` table of
`backend/search_cache_schema.sql`: part-number key, serialized results,
source count, creation/expiration timestamps, access counter and last-access
timestamp.  Timestamps are modelled as natural numbers. -/
structure CacheEntry where
  key : String
  results : List SourceResult
  sourceCount : Nat
  createdAt : Nat
  expiresAt : Nat
  searchCount : Nat
  lastAccessedAt : Nat
deriving DecidableEq, Repr

/-- The Cache Store state: the live rows of the `search_cache` table. -/
abbrev Store := List CacheEntry

/-- Is this character ASCII whitespace (for trimming part-number keys)? -/
def isSpaceChar (c : Char) : Bool :=
  c == ' ' || c == '\t' || c == '\n' || c == '\r'

/-- Drop leading and trailing whitespace from a character sequence. -/
def trimChars (l : List Char) : List Char :=
  ((l.dropWhile isSpaceChar).reverse.dropWhile isSpaceChar).reverse

/-- ASCII lower-casing of one character. -/
def lowerChar (c : Char) : Char :=
  if 65 ≤ c.toNat && c.toNat ≤ 90 then Char.ofNat (c.toNat + 32) else c

/-- Key normalization: part-number lookup is case-insensitive and trimmed. -/
def normalizeKey (s : String) : String :=
  String.mk ((trimChars s.data).map lowerChar)

/-- Modelled from the spec: Cache Store `get` (backend implementation not in
the provided sources).  Normalizes the key before lookup; does not itself
interpret expiration. -/
def getEntry (s : Store) (k : String) : Option CacheEntry :=
  s.find? (fun e => e.key == normalizeKey k)

/-- Modelled from the spec: Cache Store `put` (backend implementation not in
the provided sources).  Idempotent overwrite keyed by the normalized
part-number: any previous row for the key is replaced, never kept alongside. -/
def put (s : Store) (k : String) (e : CacheEntry) : Store :=
  { e with key := normalizeKey k } :: s.filter (fun x => !(x.key == normalizeKey k))

/-- Modelled from the spec: Cache Store `touch` (backend implementation not in
the provided sources).  Increments `searchCount` and sets `lastAccessedAt` to
now on the row for the normalized key; no value change. -/
def touch (s : Store) (k : String) (now : Nat) : Store :=
  s.map (fun e =>
    if e.key == normalizeKey k then
      { e with searchCount := e.searchCount + 1, lastAccessedAt := now }
    else e)

/-- Translated from `delete_expired_cache()` in
`backend/search_cache_schema.sql`: `DELETE FROM search_cache WHERE
expires_at < NOW()` and return the deleted row count. -/
def delete_expired_cache (s : Store) (now : Nat) : Store × Nat :=
  let kept := s.filter (fun e => !(decide (e.expiresAt < now)))
  (kept, s.length - kept.length)

/-- C5: a `put` followed immediately by a `get` for the same key, at any time
before the written entry's expiration, returns exactly the stored entry — in
particular its `results` equal what was written. -/
theorem put_get_roundtrip (s : Store) (k : String) (e : CacheEntry) (now : Nat)
    (h : now < e.expiresAt) :
    getEntry (put s k e) k = some { e with key := normalizeKey k }
    ∧ (getEntry (put s k e) k).map (fun x => x.results) = some e.results := by
  have hfind : getEntry (put s k e) k = some { e with key := normalizeKey k } := by
    simp [getEntry, put, List.find?]
  exact ⟨hfind, by rw [hfind]; rfl⟩

/-- C5 witness: round trip on a concrete store and entry before expiry. -/
theorem put_get_roundtrip_witness :
    getEntry (put [] "LM358" ⟨"lm358", [resA], 1, 0, 3600, 1, 0⟩) "LM358"
      = some ⟨"lm358", [resA], 1, 0, 3600, 1, 0⟩
    ∧ (getEntry (put [] "LM358" ⟨"lm358", [resA], 1, 0, 3600, 1, 0⟩) "LM358").map
        (fun x => x.results) = some [resA] :=
  put_get_roundtrip [] "LM358" ⟨"lm358", [resA], 1, 0, 3600, 1, 0⟩ 5 (by decide)

/-- The touch update leaves every row's key unchanged. -/
theorem touch_key (k : String) (now : Nat) (e : CacheEntry) :
    ((if e.key == normalizeKey k then
        { e with searchCount := e.searchCount + 1, lastAccessedAt := now }
      else e) : CacheEntry).key = e.key := by
  split <;> rfl

/-- Looking up key `k` after `touch k` finds the old row with `searchCount`
incremented and `lastAccessedAt` set to now. -/
theorem getEntry_touch_same (s : Store) (k : String) (now : Nat) (e : CacheEntry)
    (h : getEntry s k = some e) :
    getEntry (touch s k now) k
      = some { e with searchCount := e.searchCount + 1, lastAccessedAt := now } := by
  induction s with
  | nil => simp [getEntry] at h
  | cons a t ih =>
    by_cases ha : a.key == normalizeKey k
    · simp only [getEntry, List.find?, ha] at h
      cases h
      simp [getEntry, touch, List.find?, ha]
    · simp only [getEntry, List.find?, ha] at h
      have ih2 := ih h
      simp only [getEntry, touch, List.find?, ha] at ih2 ⊢
      simpa [ha] using ih2

/-- Looking up a different normalized key is unaffected by `touch k`. -/
theorem getEntry_touch_other (s : Store) (k q : String) (now : Nat)
    (h : normalizeKey q ≠ normalizeKey k) :
    getEntry (touch s k now) q = getEntry s q := by
  unfold getEntry touch
  rw [List.find?_map]
  have hcomp : ((fun e : CacheEntry => e.key == normalizeKey q)
      ∘ (fun e : CacheEntry => if e.key == normalizeKey k then
          { e with searchCount := e.searchCount + 1, lastAccessedAt := now }
        else e)) = fun e : CacheEntry => e.key == normalizeKey q := by
    funext e
    simp only [Function.comp]
    rw [touch_key]
  rw [hcomp]
  cases hf : List.find? (fun e : CacheEntry => e.key == normalizeKey q) s with
  | none => rfl
  | some e =>
    have he : e.key = normalizeKey q := by simpa using List.find?_some hf
    have hk : (e.key == normalizeKey k) = false := by
      rw [he]
      simpa using h
    simp [Option.map, hk]

/-- C6: `touch(key)` increments `searchCount` by one and sets `lastAccessedAt`
to now, leaving `results`, `sourceCount`, `createdAt` and `expiresAt` of that
row unchanged (the record update below touches no other field), and leaves
rows under every other normalized key untouched. -/
theorem touch_spec (s : Store) (k : String) (now : Nat) (e : CacheEntry)
    (h : getEntry s k = some e) :
    getEntry (touch s k now) k
      = some { e with searchCount := e.searchCount + 1, lastAccessedAt := now }
    ∧ ∀ q, normalizeKey q ≠ normalizeKey k → getEntry (touch s k now) q = getEntry s q :=
  ⟨getEntry_touch_same s k now e h, fun q hq => getEntry_touch_other s k q now hq⟩

/-- C6 witness: touching a concrete one-row store bumps `searchCount` 1 → 2,
sets `lastAccessedAt`, and the row for another key is unaffected. -/
theorem touch_spec_witness :
    getEntry (touch [⟨"lm358", [resA], 1, 0, 3600, 1, 0⟩] "LM358" 42) "LM358"
      = some ⟨"lm358", [resA], 1, 0, 3600, 2, 42⟩
    ∧ ∀ q, normalizeKey q ≠ normalizeKey "LM358" →
        getEntry (touch [⟨"lm358", [resA], 1, 0, 3600, 1, 0⟩] "LM358" 42) q
          = getEntry [⟨"lm358", [resA], 1, 0, 3600, 1, 0⟩] q :=
  touch_spec [⟨"lm358", [resA], 1, 0, 3600, 1, 0⟩] "LM358" 42
    ⟨"lm358", [resA], 1, 0, 3600, 1, 0⟩ (by decide)

/-- C7: `sweepExpired`/`delete_expired_cache` keeps exactly the rows whose
`expiresAt` is not strictly before now (so it deletes exactly those with
`expiresAt < now`), keeps the surviving rows unchanged and in order (a
sublist of the old state), and returns the number of deleted rows. -/
theorem delete_expired_cache_spec (s : Store) (now : Nat) :
    (∀ e, e ∈ (delete_expired_cache s now).1 ↔ (e ∈ s ∧ ¬ e.expiresAt < now))
    ∧ List.Sublist (delete_expired_cache s now).1 s
    ∧ (delete_expired_cache s now).2 = (s.filter (fun e => decide (e.expiresAt < now))).length := by
  refine ⟨?_, List.filter_sublist _, ?_⟩
  · intro e
    simp [delete_expired_cache, List.mem_filter]
  · show s.length - (s.filter (fun e => !(decide (e.expiresAt < now)))).length = _
    induction s with
    | nil => rfl
    | cons a t ih =>
      have hle := List.length_filter_le (fun e => !(decide (e.expiresAt < now))) t
      by_cases h : a.expiresAt < now <;>
        simp [List.filter_cons, h, ← ih] <;> omega

/-- C7 witness: sweeping a concrete three-row store at time 100 deletes the
two expired rows, keeps the live one, and reports `deletedCount = 2`. -/
theorem delete_expired_cache_witness :
    (⟨"a", [], 0, 0, 50, 1, 0⟩ ∈
        (delete_expired_cache
          [⟨"a", [], 0, 0, 50, 1, 0⟩, ⟨"b", [], 0, 0, 200, 1, 0⟩,
           ⟨"c", [], 0, 0, 99, 1, 0⟩] 100).1
      ↔ (⟨"a", [], 0, 0, 50, 1, 0⟩ ∈
          ([⟨"a", [], 0, 0, 50, 1, 0⟩, ⟨"b", [], 0, 0, 200, 1, 0⟩,
            ⟨"c", [], 0, 0, 99, 1, 0⟩] : Store) ∧ ¬ (50 : Nat) < 100))
    ∧ (delete_expired_cache
        [⟨"a", [], 0, 0, 50, 1, 0⟩, ⟨"b", [], 0, 0, 200, 1, 0⟩,
         ⟨"c", [], 0, 0, 99, 1, 0⟩] 100).2 = 2 :=
  ⟨(delete_expired_cache_spec
      [⟨"a", [], 0, 0, 50, 1, 0⟩, ⟨"b", [], 0, 0, 200, 1, 0⟩,
       ⟨"c", [], 0, 0, 99, 1, 0⟩] 100).1 ⟨"a", [], 0, 0, 50, 1, 0⟩,
   by
    rw [(delete_expired_cache_spec
      [⟨"a", [], 0, 0, 50, 1, 0⟩, ⟨"b", [], 0, 0, 200, 1, 0⟩,
       ⟨"c", [], 0, 0, 99, 1, 0⟩] 100).2.2]
    decide⟩

/-- Terminal states of the Orchestrator's per-query state machine. -/
inductive Terminal where
  | hit
  | freshResult
  | staleFallback
  | hardFailure
deriving DecidableEq, Repr

/-- What one orchestrated lookup produced: the response (results plus a
staleness flag and the terminal state reached), the Cache Store state after
the call, and how many Source Client invocations the call made. -/
structure LookupOutcome where
  results : List SourceResult
  stale : Bool
  terminal : Terminal
  store : Store
  calls : Nat
deriving DecidableEq, Repr

/-- The fresh `CacheEntry` written after a successful aggregation: fresh
`createdAt`/`expiresAt` (TTL from configuration), `searchCount` reset to 1
unless an entry for the key existed, in which case one more than its prior
`searchCount`. -/
def mkEntry (q : String) (agg : AggregateResult) (now : Nat) (cfg : Config)
    (prior : Option CacheEntry) : CacheEntry :=
  { key := normalizeKey q
    results := agg.results
    sourceCount := agg.sourceCount
    createdAt := now
    expiresAt := now + cfg.ttl
    searchCount := match prior with | some e => e.searchCount + 1 | none => 1
    lastAccessedAt := now }

/-- Modelled from the spec: the Query Orchestrator's per-query state machine
(backend implementation not in the provided sources).  `LOOKUP` consults the
store; a fresh entry is a `HIT` (touch, return cached, zero client calls); a
missing or expired entry leads to `AGGREGATING`, after which success writes
the entry back (`FRESH_RESULT`), total failure with a prior entry serves it
stale without writing (`STALE_FALLBACK`), and total failure with no prior
entry is a `HARD_FAILURE`. -/
def lookup (cfg : Config) (clients : List SourceClient) (s : Store) (now : Nat)
    (q : String) : LookupOutcome :=
  match getEntry s q with
  | some e =>
    if now < e.expiresAt then
      ⟨e.results, false, .hit, touch s q now, 0⟩
    else if (aggregate cfg clients q).allSourcesFailed then
      ⟨e.results, true, .staleFallback, s, clients.length⟩
    else
      ⟨(aggregate cfg clients q).results, false, .freshResult,
        put s q (mkEntry q (aggregate cfg clients q) now cfg (some e)), clients.length⟩
  | none =>
    if (aggregate cfg clients q).allSourcesFailed then
      ⟨[], false, .hardFailure, s, clients.length⟩
    else
      ⟨(aggregate cfg clients q).results, false, .freshResult,
        put s q (mkEntry q (aggregate cfg clients q) now cfg none), clients.length⟩

/-- C4: on a fresh cache hit (`now < expiresAt`) the Orchestrator makes zero
Source Client calls, returns the cached results unchanged with the store
touched, and the touched store holds the entry with `searchCount` one higher
(so a repeat within the TTL window moves `searchCount` from 1 to 2). -/
theorem lookup_hit (cfg : Config) (clients : List SourceClient) (s : Store)
    (now : Nat) (q : String) (e : CacheEntry)
    (hget : getEntry s q = some e) (hfresh : now < e.expiresAt) :
    lookup cfg clients s now q = ⟨e.results, false, .hit, touch s q now, 0⟩
    ∧ getEntry (lookup cfg clients s now q).store q
        = some { e with searchCount := e.searchCount + 1, lastAccessedAt := now } := by
  have h1 : lookup cfg clients s now q = ⟨e.results, false, .hit, touch s q now, 0⟩ := by
    simp [lookup, hget, hfresh]
  refine ⟨h1, ?_⟩
  rw [h1]
  exact getEntry_touch_same s q now e hget

/-- C4 witness: a concrete fresh two-result entry for "LM358" is served with
zero client calls and its `searchCount` goes from 1 to 2. -/
theorem lookup_hit_witness :
    lookup exCfg [clientA, clientB] [⟨"lm358", [resA, resB], 2, 0, 3600, 1, 0⟩] 10 "LM358"
      = ⟨[resA, resB], false, .hit,
          touch [⟨"lm358", [resA, resB], 2, 0, 3600, 1, 0⟩] "LM358" 10, 0⟩
    ∧ getEntry (lookup exCfg [clientA, clientB]
          [⟨"lm358", [resA, resB], 2, 0, 3600, 1, 0⟩] 10 "LM358").store "LM358"
      = some ⟨"lm358", [resA, resB], 2, 0, 3600, 2, 10⟩ :=
  lookup_hit exCfg [clientA, clientB] [⟨"lm358", [resA, resB], 2, 0, 3600, 1, 0⟩]
    10 "LM358" ⟨"lm358", [resA, resB], 2, 0, 3600, 1, 0⟩ (by decide) (by decide)

/-- C3: if an entry exists for the key and the aggregation run for the key
fails with `allSourcesFailed`, the Orchestrator returns that entry's results
flagged as stale at terminal `STALE_FALLBACK`, and the store after the call
is exactly the store before it — the entry is neither deleted nor
overwritten. -/
theorem lookup_stale_fallback (cfg : Config) (clients : List SourceClient)
    (s : Store) (now : Nat) (q : String) (e : CacheEntry)
    (hget : getEntry s q = some e) (hexp : ¬ now < e.expiresAt)
    (hfail : (aggregate cfg clients q).allSourcesFailed = true) :
    lookup cfg clients s now q = ⟨e.results, true, .staleFallback, s, clients.length⟩ := by
  simp [lookup, hget, hexp, hfail]

/-- C3 witness: with one timing-out client and an expired entry for "LM358",
the Orchestrator serves the stored results stale and leaves the store
untouched. -/
theorem lookup_stale_fallback_witness :
    lookup exCfg [⟨1, fun _ => .failed .timeout⟩] [⟨"lm358", [resA], 1, 0, 5, 3, 4⟩]
        10 "LM358"
      = ⟨[resA], true, .staleFallback, [⟨"lm358", [resA], 1, 0, 5, 3, 4⟩], 1⟩ :=
  lookup_stale_fallback exCfg [⟨1, fun _ => .failed .timeout⟩]
    [⟨"lm358", [resA], 1, 0, 5, 3, 4⟩] 10 "LM358" ⟨"lm358", [resA], 1, 0, 5, 3, 4⟩
    (by decide) (by decide) (by decide)

/-- The mutating Cache Store operations: `put`, `touch`, and the expiration
sweep (the only writers named by the spec and the schema). -/
inductive CacheOp where
  | opPut (k : String) (e : CacheEntry)
  | opTouch (k : String) (now : Nat)
  | opSweep (now : Nat)

/-- Apply one Cache Store operation to a store state. -/
def applyOp (s : Store) : CacheOp → Store
  | .opPut k e => put s k e
  | .opTouch k now => touch s k now
  | .opSweep now => (delete_expired_cache s now).1

/-- The store reached from the initial empty table by a sequence of
operations. -/
def runOps (ops : List CacheOp) : Store :=
  ops.foldl applyOp []

/-- The invariant: no two live rows share a key. -/
def KeysUnique (s : Store) : Prop :=
  s.Pairwise (fun a b => a.key ≠ b.key)

/-- The operation `put` preserves key uniqueness: the overwrite removes every row under the
normalized key before inserting the one new row. -/
theorem keysUnique_put (s : Store) (k : String) (e : CacheEntry)
    (h : KeysUnique s) : KeysUnique (put s k e) := by
  unfold KeysUnique put
  refine List.pairwise_cons.mpr ⟨?_, h.sublist (List.filter_sublist _)⟩
  intro b hb
  have hbk : ¬ b.key = normalizeKey k := by
    simpa using (List.mem_filter.mp hb).2
  intro hc
  exact hbk hc.symm

/-- The operation `touch` preserves key uniqueness: it never changes a key. -/
theorem keysUnique_touch (s : Store) (k : String) (now : Nat)
    (h : KeysUnique s) : KeysUnique (touch s k now) := by
  unfold KeysUnique touch
  rw [List.pairwise_map]
  refine h.imp ?_
  intro a b hab
  rw [touch_key, touch_key]
  exact hab

/-- The expiration sweep preserves key uniqueness: it only removes rows. -/
theorem keysUnique_sweep (s : Store) (now : Nat) (h : KeysUnique s) :
    KeysUnique (delete_expired_cache s now).1 :=
  h.sublist (List.filter_sublist _)

/-- Every Cache Store operation preserves key uniqueness. -/
theorem keysUnique_applyOp (s : Store) (op : CacheOp) (h : KeysUnique s) :
    KeysUnique (applyOp s op) := by
  cases op with
  | opPut k e => exact keysUnique_put s k e h
  | opTouch k now => exact keysUnique_touch s k now h
  | opSweep now => exact keysUnique_sweep s now h

/-- Helper for reachability: folding operations from any key-unique store
stays key-unique. -/
theorem keysUnique_foldl (ops : List CacheOp) :
    ∀ s : Store, KeysUnique s → KeysUnique (ops.foldl applyOp s) := by
  induction ops with
  | nil => exact fun s hs => hs
  | cons op rest ih => exact fun s hs => ih (applyOp s op) (keysUnique_applyOp s op hs)

/-- On an existing key, `put` replaces the row rather than adding one: the
store size is unchanged. -/
theorem put_length_existing (s : Store) (k : String) (e : CacheEntry)
    (h : KeysUnique s) (hex : (getEntry s k).isSome = true) :
    (put s k e).length = s.length := by
  induction s with
  | nil => simp [getEntry] at hex
  | cons a t ih =>
    have hpw := List.pairwise_cons.mp h
    by_cases ha : a.key = normalizeKey k
    · have hall : ∀ b ∈ t, (!(b.key == normalizeKey k)) = true := by
        intro b hb
        have hne := hpw.1 b hb
        rw [ha] at hne
        simpa using Ne.symm hne
      simp [put, List.filter_cons, ha, List.filter_eq_self.mpr hall]
    · have haf : (a.key == normalizeKey k) = false := by simpa using ha
      have hex2 : (getEntry t k).isSome = true := by
        simpa only [getEntry, List.find?, haf] using hex
      have h2 := ih hpw.2 hex2
      simp only [put, List.length_cons] at h2 ⊢
      rw [List.filter_cons]
      have haf2 : (!(a.key == normalizeKey k)) = true := by simp [haf]
      rw [haf2]
      simp only [if_true, List.length_cons]
      omega

/-- C8: key uniqueness is an invariant of every reachable Cache Store state —
it holds of every state produced from the empty table by any sequence of
`put`/`touch`/sweep operations, it is preserved by every orchestrated lookup,
and a full re-aggregation write (`put`) for an existing key overwrites the
row rather than adding a second one. -/
theorem cache_key_invariant :
    (∀ ops : List CacheOp, KeysUnique (runOps ops))
    ∧ (∀ (cfg : Config) (clients : List SourceClient) (s : Store) (now : Nat)
        (q : String), KeysUnique s → KeysUnique (lookup cfg clients s now q).store)
    ∧ (∀ (s : Store) (k : String) (e : CacheEntry), KeysUnique s →
        (getEntry s k).isSome = true → (put s k e).length = s.length) := by
  refine ⟨fun ops => keysUnique_foldl ops [] (List.Pairwise.nil), ?_,
    fun s k e hs hex => put_length_existing s k e hs hex⟩
  intro cfg clients s now q hs
  cases hget : getEntry s q with
  | some e =>
    by_cases h1 : now < e.expiresAt
    · simpa [lookup, hget, h1] using keysUnique_touch s q now hs
    · by_cases h2 : (aggregate cfg clients q).allSourcesFailed = true
      · simpa [lookup, hget, h1, h2] using hs
      · simpa [lookup, hget, h1, h2] using
          keysUnique_put s q (mkEntry q (aggregate cfg clients q) now cfg (some e)) hs
  | none =>
    by_cases h2 : (aggregate cfg clients q).allSourcesFailed = true
    · simpa [lookup, hget, h2] using hs
    · simpa [lookup, hget, h2] using
        keysUnique_put s q (mkEntry q (aggregate cfg clients q) now cfg none) hs

/-- C8 witness: a concrete operation sequence that writes "LM358" twice (the
second time spelled with spaces and lower case) reaches a key-unique store,
and the second write keeps the store at one row. -/
theorem cache_key_invariant_witness :
    KeysUnique (runOps
      [.opPut "LM358" ⟨"", [resA], 1, 0, 3600, 1, 0⟩,
       .opPut " lm358 " ⟨"", [resB], 1, 5, 3700, 1, 5⟩,
       .opTouch "LM358" 9])
    ∧ (put [⟨"lm358", [resA], 1, 0, 3600, 1, 0⟩] "LM358"
        ⟨"", [resB], 1, 5, 3700, 1, 5⟩).length
      = ([⟨"lm358", [resA], 1, 0, 3600, 1, 0⟩] : Store).length :=
  ⟨cache_key_invariant.1 _,
   cache_key_invariant.2.2 [⟨"lm358", [resA], 1, 0, 3600, 1, 0⟩] "LM358"
     ⟨"", [resB], 1, 5, 3700, 1, 5⟩ (by simp [KeysUnique]) (by decide)⟩

/-- State of the concurrency model of the Orchestrator: the shared store, the
at-most-one in-flight aggregation per key (here: the one coalescing slot for
the key under test, holding the query and its waiting requesters), the
cumulative number of Source Client invocations made, and the responses
delivered to requesters so far. -/
structure OrchState where
  store : Store
  inflight : Option (String × List Nat)
  calls : Nat
  delivered : List (Nat × List SourceResult)

/-- Modelled from the spec: arrival of one concurrent requester (backend
implementation not in the provided sources).  A fresh hit is answered
immediately from cache with zero client calls; a miss with an aggregation
already in flight for the same normalized key joins its waiters without any
new fan-out; a miss with no aggregation in flight starts the single fan-out,
invoking each configured client once. -/
def arrive (clients : List SourceClient) (now : Nat) (st : OrchState)
    (reqId : Nat) (q : String) : OrchState :=
  match st.inflight with
  | some (qk, ws) =>
    if normalizeKey q = normalizeKey qk then
      { st with inflight := some (qk, ws ++ [reqId]) }
    else st
  | none =>
    match getEntry st.store q with
    | some e =>
      if now < e.expiresAt then
        { st with store := touch st.store q now
                  delivered := st.delivered ++ [(reqId, e.results)] }
      else
        { st with inflight := some (q, [reqId]), calls := st.calls + clients.length }
    | none =>
      { st with inflight := some (q, [reqId]), calls := st.calls + clients.length }

/-- Modelled from the spec: completion of the in-flight aggregation (backend
implementation not in the provided sources).  The single result is broadcast
to every waiter — on success it is also written back to the store; on total
failure the stale entry (if any) is served, else an empty hard-failure
answer — and the coalescing slot is released.  No Source Client is invoked
here: the fan-out was counted when the aggregation started. -/
def complete (cfg : Config) (clients : List SourceClient) (now : Nat)
    (st : OrchState) : OrchState :=
  match st.inflight with
  | none => st
  | some (qk, ws) =>
    if (aggregate cfg clients qk).allSourcesFailed then
      match getEntry st.store qk with
      | some e =>
        { st with inflight := none
                  delivered := st.delivered ++ ws.map (fun r => (r, e.results)) }
      | none =>
        { st with inflight := none
                  delivered := st.delivered ++ ws.map (fun r => (r, ([] : List SourceResult))) }
    else
      { st with inflight := none
                store := put st.store qk
                  (mkEntry qk (aggregate cfg clients qk) now cfg (getEntry st.store qk))
                delivered := st.delivered ++ ws.map (fun r => (r, (aggregate cfg clients qk).results)) }

/-- A batch of simultaneous arrivals for the same query. -/
def arriveAll (clients : List SourceClient) (now : Nat) (st : OrchState)
    (reqs : List Nat) (q : String) : OrchState :=
  reqs.foldl (fun acc r => arrive clients now acc r q) st

/-- While an aggregation for the query is in flight, further arrivals for it
only join the waiter list: no store change, no new client calls. -/
theorem arriveAll_inflight (clients : List SourceClient) (now : Nat)
    (reqs : List Nat) :
    ∀ (st : OrchState) (ws : List Nat) (q : String),
      st.inflight = some (q, ws) →
      arriveAll clients now st reqs q = { st with inflight := some (q, ws ++ reqs) } := by
  induction reqs with
  | nil =>
    intro st ws q hin
    simp only [arriveAll, List.foldl_nil, List.append_nil]
    rw [← hin]
  | cons r rest ih =>
    intro st ws q hin
    have harr : arrive clients now st r q = { st with inflight := some (q, ws ++ [r]) } := by
      simp [arrive, hin]
    show arriveAll clients now (arrive clients now st r q) rest q = _
    rw [harr, ih { st with inflight := some (q, ws ++ [r]) } (ws ++ [r]) q rfl]
    simp

/-- C9: for a batch of concurrent requesters that all miss on the same key,
the Orchestrator runs exactly one aggregation fan-out — the Source Client
call count rises by the configured client count, once, not once per
requester; completion adds no further calls — and every requester in the
batch is delivered the one result of that single in-flight aggregation. -/
theorem coalescing (cfg : Config) (clients : List SourceClient) (now : Nat)
    (st : OrchState) (reqs : List Nat) (q : String)
    (hin : st.inflight = none) (hmiss : getEntry st.store q = none)
    (hne : reqs ≠ []) :
    (arriveAll clients now st reqs q).calls = st.calls + clients.length
    ∧ (arriveAll clients now st reqs q).store = st.store
    ∧ (arriveAll clients now st reqs q).inflight = some (q, reqs)
    ∧ (complete cfg clients now (arriveAll clients now st reqs q)).calls
        = (arriveAll clients now st reqs q).calls
    ∧ (complete cfg clients now (arriveAll clients now st reqs q)).delivered
        = st.delivered ++ reqs.map (fun r =>
            (r, if (aggregate cfg clients q).allSourcesFailed then []
                else (aggregate cfg clients q).results)) := by
  obtain ⟨r, rest, rfl⟩ : ∃ r rest, reqs = r :: rest := by
    cases reqs with
    | nil => exact absurd rfl hne
    | cons r rest => exact ⟨r, rest, rfl⟩
  have harr : arrive clients now st r q
      = { st with inflight := some (q, [r]), calls := st.calls + clients.length } := by
    simp [arrive, hin, hmiss]
  have hall : arriveAll clients now st (r :: rest) q
      = { st with inflight := some (q, r :: rest), calls := st.calls + clients.length } := by
    show arriveAll clients now (arrive clients now st r q) rest q = _
    rw [harr, arriveAll_inflight clients now rest
      { st with inflight := some (q, [r]), calls := st.calls + clients.length } [r] q rfl]
    simp
  rw [hall]
  refine ⟨rfl, rfl, rfl, ?_, ?_⟩ <;>
    by_cases hf : (aggregate cfg clients q).allSourcesFailed <;>
      simp [complete, hf, hmiss]

/-- C9 witness: three concurrent requesters for missing key "LM358" against
the two example clients cause exactly two client invocations (one per
configured client) and all three are delivered the same aggregated result. -/
theorem coalescing_witness :
    (arriveAll [clientA, clientB] 0 ⟨[], none, 0, []⟩ [7, 8, 9] "LM358").calls = 0 + 2
    ∧ (arriveAll [clientA, clientB] 0 ⟨[], none, 0, []⟩ [7, 8, 9] "LM358").store = []
    ∧ (arriveAll [clientA, clientB] 0 ⟨[], none, 0, []⟩ [7, 8, 9] "LM358").inflight
        = some ("LM358", [7, 8, 9])
    ∧ (complete exCfg [clientA, clientB] 0
        (arriveAll [clientA, clientB] 0 ⟨[], none, 0, []⟩ [7, 8, 9] "LM358")).calls
      = (arriveAll [clientA, clientB] 0 ⟨[], none, 0, []⟩ [7, 8, 9] "LM358").calls
    ∧ (complete exCfg [clientA, clientB] 0
        (arriveAll [clientA, clientB] 0 ⟨[], none, 0, []⟩ [7, 8, 9] "LM358")).delivered
      = [] ++ [7, 8, 9].map (fun r =>
          (r, if (aggregate exCfg [clientA, clientB] "LM358").allSourcesFailed then []
              else (aggregate exCfg [clientA, clientB] "LM358").results)) :=
  coalescing exCfg [clientA, clientB] 0 ⟨[], none, 0, []⟩ [7, 8, 9] "LM358"
    rfl (by decide) (by simp)

/-- A result card in the front end's App component (the `ComponentPart`
interface).  Optional TypeScript fields are `Option`; prices are integers
(KRW amounts). -/
structure ComponentPart where
  id : String
  mpn : String := ""
  manufacturer : String := ""
  distributor : String := ""
  source_type : String := ""
  stock : Nat := 0
  price : Int := 0
  price_history : List Int := []
  basePrice : Option Int := none
  currency : String := "KRW"
  delivery : String := ""
  condition : String := ""
  date_code : String := ""
  is_eol : Bool := false
  risk_level : String := "Low"
  is_qc_enabled : Option Bool := none
deriving DecidableEq, Repr

/-- The QC add-on surcharge from the App component. -/
def QC_PRICE : Int := 72500

/-- JavaScript truthiness of `item.basePrice || item.price`: an absent or
zero `basePrice` falls back to `price`. -/
def basePriceOr (bp : Option Int) (p : Int) : Int :=
  match bp with
  | none => p
  | some b => if b = 0 then p else b

/-- One item's update inside `toggleQC` (translated from the App component):
for the matching id, flip the QC flag to `!current` and set the price to the
base price plus the QC surcharge when enabling, or back to the base price
when disabling; every other item is returned unchanged by the map. -/
def toggleQCItem (id : String) (current : Bool) (item : ComponentPart) :
    ComponentPart :=
  if item.id == id then
    { item with
      is_qc_enabled := some (!current)
      price := if !current then basePriceOr item.basePrice item.price + QC_PRICE
               else basePriceOr item.basePrice item.price }
  else item

/-- The function `toggleQC` from the App component: map the per-item update over the
results list. -/
def toggleQC (id : String) (current : Bool) (results : List ComponentPart) :
    List ComponentPart :=
  results.map (toggleQCItem id current)

/-- C10: `toggleQC(id, false)` followed by `toggleQC(id, true)` acts
item-wise on the results list; an item with a different id is unchanged by
both calls, and an item with the matching id and a set, non-zero `basePrice`
b first becomes exactly `price = b + 72500, is_qc_enabled = true` (all other
fields untouched by the record update) and is then restored to
`price = b, is_qc_enabled = false`. -/
theorem toggleQC_roundtrip (id : String) (rs : List ComponentPart)
    (item : ComponentPart) (b : Int) :
    (toggleQC id true (toggleQC id false rs)
      = rs.map (fun x => toggleQCItem id true (toggleQCItem id false x)))
    ∧ (item.id ≠ id →
        toggleQCItem id false item = item ∧ toggleQCItem id true item = item)
    ∧ (item.id = id → item.basePrice = some b → b ≠ 0 →
        toggleQCItem id false item
          = { item with is_qc_enabled := some true, price := b + QC_PRICE }
        ∧ toggleQCItem id true (toggleQCItem id false item)
          = { item with is_qc_enabled := some false, price := b }) := by
  refine ⟨by simp [toggleQC, Function.comp], ?_, ?_⟩
  · intro hne
    constructor <;> simp [toggleQCItem, hne]
  · intro hid hbp hb
    constructor <;> simp [toggleQCItem, hid, basePriceOr, hbp, hb]

/-- C10 witness: a two-item list where item "p1" has base price 1000; the QC
round trip prices it at 73500 then back at 1000, and leaves item "p2"
alone. -/
theorem toggleQC_roundtrip_witness :
    (toggleQC "p1" true (toggleQC "p1" false
        [⟨"p1", "LM358", "", "", "", 5, 1000, [], some 1000, "KRW", "", "", "",
          false, "High", some false⟩,
         ⟨"p2", "LM358", "", "", "", 9, 500, [], some 500, "KRW", "", "", "",
          false, "Low", some false⟩])
      = [⟨"p1", "LM358", "", "", "", 5, 1000, [], some 1000, "KRW", "", "", "",
          false, "High", some false⟩,
         ⟨"p2", "LM358", "", "", "", 9, 500, [], some 500, "KRW", "", "", "",
          false, "Low", some false⟩].map
          (fun x => toggleQCItem "p1" true (toggleQCItem "p1" false x)))
    ∧ (toggleQCItem "p1" false
        ⟨"p1", "LM358", "", "", "", 5, 1000, [], some 1000, "KRW", "", "", "",
          false, "High", some false⟩
        = ⟨"p1", "LM358", "", "", "", 5, 1000 + QC_PRICE, [], some 1000, "KRW",
            "", "", "", false, "High", some true⟩
      ∧ toggleQCItem "p1" true (toggleQCItem "p1" false
          ⟨"p1", "LM358", "", "", "", 5, 1000, [], some 1000, "KRW", "", "", "",
            false, "High", some false⟩)
        = ⟨"p1", "LM358", "", "", "", 5, 1000, [], some 1000, "KRW", "", "", "",
            false, "High", some false⟩)
    ∧ (toggleQCItem "p1" false
        ⟨"p2", "LM358", "", "", "", 9, 500, [], some 500, "KRW", "", "", "",
          false, "Low", some false⟩
      = ⟨"p2", "LM358", "", "", "", 9, 500, [], some 500, "KRW", "", "", "",
          false, "Low", some false⟩) := by
  have h := toggleQC_roundtrip "p1"
    [⟨"p1", "LM358", "", "", "", 5, 1000, [], some 1000, "KRW", "", "", "",
      false, "High", some false⟩,
     ⟨"p2", "LM358", "", "", "", 9, 500, [], some 500, "KRW", "", "", "",
      false, "Low", some false⟩]
    ⟨"p1", "LM358", "", "", "", 5, 1000, [], some 1000, "KRW", "", "", "",
      false, "High", some false⟩ 1000
  have h2 := toggleQC_roundtrip "p1"
    ([] : List ComponentPart)
    ⟨"p2", "LM358", "", "", "", 9, 500, [], some 500, "KRW", "", "", "",
      false, "Low", some false⟩ 500
  have hcase := h.2.2 (by decide) (by decide) (by decide)
  exact ⟨h.1, ⟨hcase.1, hcase.2⟩, (h2.2.1 (by decide)).1⟩

end RareSource
